import Mathlib

/-!
Verification of the `comm` library (transport-agnostic serial/TCP byte-stream
channels) against its natural-language specification.

The C++ sources are shallowly embedded below:
* `src/src/utils.cc` — `to_timeval`, `get_bytetime`;
* `src/include/comm/utils.h` — `TimeCheck` (deadline arithmetic), `Timeout`, `Settings`;
* `src/src/comm.cc` — `Comm::readline`, `Comm::readlines`, `Comm::close_`, setters;
* `src/src/serial.cc` — `Serial::read_`, `Serial::send_`, `Serial::open_`,
  `Serial::connect_`, `Serial::setOptions_`;
* `src/src/ether.cc` — `Ether::read_`, `Ether::send_`, `Ether::open_`,
  `Ether::connect_`, `Ether::setOptions_`.

Bytes are modelled as `Nat` values, byte strings as `List Nat`.  C `double`
arithmetic is modelled exactly over `ℚ` (all inputs appearing in the claims are
dyadic rationals on which the C computations are exact).  Machine integers are
modelled as `Nat`/`ℤ`, with an explicit `% 2^64` where the source's `size_t`
arithmetic wraps.  Fallible code returns `Except`/`Option`.
-/

namespace CommLib

/-- Error taxonomy of the library: `IOException`, `InterfaceException`,
`ConnectionException` (see `src/include/comm/utils.h`) and the
`std::runtime_error` thrown by `to_timeval` (the spec's `RangeError`). -/
inductive CommError where
  | rangeError
  | ioError
  | interfaceError
  | connectionError
deriving DecidableEq, Repr

/-- The C `struct timeval` as stored by the library: whole seconds plus
microseconds, both non-negative (`to_timeval` only ever produces values
fitting dual 32-bit). -/
structure Timeval where
  tv_sec : Nat
  tv_usec : Nat
deriving DecidableEq, Repr

/-- The C `struct timespec` used by `TimeCheck`: seconds plus nanoseconds.
The source never normalizes the nanosecond field, so `tv_nsec` may exceed
10^9. -/
structure Timespec where
  tv_sec : Nat
  tv_nsec : Nat
deriving DecidableEq, Repr

/-- Value in seconds denoted by a `timeval` pair. -/
def Timeval.val (t : Timeval) : ℚ := t.tv_sec + t.tv_usec / 1000000

/-- Value in seconds denoted by a `timespec` pair (the pair read as a single
point in time). -/
def Timespec.val (t : Timespec) : ℚ := t.tv_sec + t.tv_nsec / 1000000000

/-- Embedding of `to_timeval` (`src/src/utils.cc:22-34`).

```
timeval to_timeval ( double data ) {
    int64_t sec64 = static_cast<int64_t>(std::floor(data));
    if (sec64 < 0 || sec64 > std::numeric_limits<uint32_t>::max())
        throw std::runtime_error("Time is out of dual 32-bit range");
    struct timeval time{ static_cast<uint32_t>(sec64),
        static_cast<uint32_t>(std::round((data - sec64) * 1e6)) };
    time.tv_sec += (time.tv_usec / 1000000ul);
    time.tv_usec %= 1000000ul;
    return time; }
```

The `double` argument is modelled as a rational; `std::floor` is `Int.floor`.
In the non-throwing branch `data - sec64 ∈ [0, 1)`, so `std::round` (half away
from zero) coincides with `⌊x + 1/2⌋`. -/
def to_timeval (data : ℚ) : Except CommError Timeval :=
  let sec64 : ℤ := ⌊data⌋
  if sec64 < 0 ∨ (4294967295 : ℤ) < sec64 then .error .rangeError
  else
    let usec : ℤ := ⌊(data - sec64) * 1000000 + 1/2⌋
    .ok ⟨sec64.toNat + usec.toNat / 1000000, usec.toNat % 1000000⟩

/-- `ByteSize` enum (`src/include/comm/utils.h:89`): `FIVE=5 … EIGHT=8`. -/
inductive ByteSize where
  | five | six | seven | eight
deriving DecidableEq, Repr

/-- Numeric enum value of a `ByteSize`. -/
def ByteSize.val : ByteSize → Nat
  | .five => 5
  | .six => 6
  | .seven => 7
  | .eight => 8

/-- `Parity` enum (`src/include/comm/utils.h:91`):
`NOPAR=0, ODD=1, EVEN=2, MARK=3, SPACE=4`. -/
inductive Parity where
  | nopar | odd | even | mark | space
deriving DecidableEq, Repr

/-- Numeric enum value of a `Parity`. -/
def Parity.val : Parity → Nat
  | .nopar => 0
  | .odd => 1
  | .even => 2
  | .mark => 3
  | .space => 4

/-- `StopBits` enum (`src/include/comm/utils.h:93`): `ONE=1, TWO=2, HALFONE=3`. -/
inductive StopBits where
  | one | two | halfone
deriving DecidableEq, Repr

/-- Numeric enum value of a `StopBits`. -/
def StopBits.val : StopBits → Nat
  | .one => 1
  | .two => 2
  | .halfone => 3

/-- `FlowControl` enum (`src/include/comm/utils.h:95`). -/
inductive FlowControl where
  | noflow | software | hardware
deriving DecidableEq, Repr

/-- The `Settings` struct (`src/include/comm/utils.h:143-154`). -/
structure Settings where
  bytesize : ByteSize
  parity : Parity
  stopbits : StopBits
  flowcontrol : FlowControl
deriving DecidableEq, Repr

/-- Embedding of `get_bytetime` (`src/src/utils.cc:36-38`):

```
double get_bytetime ( uint32_t baudrate, const Settings& settings ) {
    return ( 1.0 + settings.bytesize + settings.parity
             + (settings.stopbits==HALFONE?1.5:settings.stopbits) ) / baudrate; }
```

The enum operands are promoted to `double` at their numeric enum values. -/
def get_bytetime (baudrate : Nat) (settings : Settings) : ℚ :=
  (1 + (settings.bytesize.val : ℚ) + (settings.parity.val : ℚ) +
    (if settings.stopbits = .halfone then (3/2 : ℚ) else (settings.stopbits.val : ℚ)))
  / baudrate

/-- Embedding of the `TimeCheck` constructor (`src/include/comm/utils.h:121-123`):
the deadline pair computed from the base timeout, the per-byte timeout, the
requested size and the monotonic-clock reading taken at construction.

```
this->timeout.tv_sec = timeout.tv_sec + byte.tv_sec * size * 2 + this->now.tv_sec;
this->timeout.tv_nsec = ( timeout.tv_usec + byte.tv_usec * size * 2 ) * 1000 + this->now.tv_nsec;
```

The nanosecond field is not normalized.  The model assumes the 64-bit
arithmetic does not overflow (all quantities are kept exact in `Nat`). -/
def timeCheckDeadline (timeout byte : Timeval) (size : Nat) (now : Timespec) : Timespec :=
  ⟨timeout.tv_sec + byte.tv_sec * size * 2 + now.tv_sec,
   (timeout.tv_usec + byte.tv_usec * size * 2) * 1000 + now.tv_nsec⟩

/-- Embedding of `TimeCheck::expired` (`src/include/comm/utils.h:124-125`):

```
bool expired ( ) { clock_gettime( CLOCK_MONOTONIC, & ( this->now ) );
    return ( this->timeout.tv_sec < this->now.tv_sec || this->timeout.tv_nsec < this->now.tv_nsec ); }
```

`deadline` is the stored `timeout` pair and `now` the fresh monotonic-clock
reading taken at call time. -/
def timeCheckExpired (deadline now : Timespec) : Bool :=
  decide (deadline.tv_sec < now.tv_sec) || decide (deadline.tv_nsec < now.tv_nsec)

/-!  ## Line framing (`Comm::readline`, `Comm::readlines`, `src/src/comm.cc`)

The single-byte transfers `read_(buffer+read_so_far, 1)` are modelled by
dequeuing one byte from a byte stream (`List Nat`); an exhausted stream models
the transfer returning `0` (timeout with no data). -/

/-- Loop of `Comm::readline` (`src/src/comm.cc:141-157`):

```
while ( read_so_far < size ) {
    size_t bytes_read = this->read_ (buffer_ + read_so_far, 1);
    read_so_far += bytes_read;
    if (bytes_read == 0) break;
    if(read_so_far < this->eol_len_) continue;
    if (string (…buffer_+read_so_far-eol_len_…, eol_len_) == this->eol_) break; }
buffer.append(…buffer_…, read_so_far);
```

`buf` is the accumulated `buffer_` contents (`read_so_far = buf.length`). -/
def readlineLoop (eol : List Nat) (size : Nat) : List Nat → List Nat → List Nat
  | stream, buf =>
    if size ≤ buf.length then buf
    else
      match stream with
      | [] => buf
      | b :: rest =>
        let buf' := buf ++ [b]
        if buf'.length < eol.length then readlineLoop eol size rest buf'
        else if buf'.drop (buf'.length - eol.length) = eol then buf'
        else readlineLoop eol size rest buf'

/-- `Comm::readline(buffer, size)`: the bytes appended to `buffer`. -/
def readline (eol : List Nat) (size : Nat) (stream : List Nat) : List Nat :=
  readlineLoop eol size stream []

/-- Trailing-line emission after the `Comm::readlines` loop
(`src/src/comm.cc:187-188`):

```
if (start_of_line != read_so_far)
    lines.emplace_back(…buffer_+start_of_line…, read_so_far-start_of_line);
```
-/
def readlinesFinish (buf : List Nat) (start : Nat) (lines : List (List Nat)) :
    List (List Nat) :=
  if start = buf.length then lines else lines ++ [buf.drop start]

/-- Loop of `Comm::readlines` (`src/src/comm.cc:168-191`):

```
while (read_so_far < size) {
    size_t bytes_read = this->read_ (buffer_+read_so_far, 1);
    if ( bytes_read == 0 ) break;
    read_so_far += bytes_read;
    if ( read_so_far < this->eol_len_ + start_of_line ) continue;
    if ( strncmp ( …buffer_+read_so_far-eol_len_…, this->eol_.c_str(), this->eol_len_ ) ) {  // EOL found
        lines.emplace_back(…buffer_+start_of_line…, read_so_far-start_of_line);
        start_of_line = read_so_far; }
    if ( read_so_far == size ) break; }
```

Note that `strncmp` returns non-zero exactly when the compared byte ranges
differ, so the `// EOL found` branch is taken on a *mismatch* with the
end-of-line marker; the embedding reproduces this faithfully. -/
def readlinesLoop (eol : List Nat) (size : Nat) :
    List Nat → List Nat → Nat → List (List Nat) → List (List Nat)
  | stream, buf, start, lines =>
    if size ≤ buf.length then readlinesFinish buf start lines
    else
      match stream with
      | [] => readlinesFinish buf start lines
      | b :: rest =>
        let buf' := buf ++ [b]
        if buf'.length < eol.length + start then readlinesLoop eol size rest buf' start lines
        else if buf'.drop (buf'.length - eol.length) ≠ eol then
          let lines' := lines ++ [buf'.drop start]
          if buf'.length = size then readlinesFinish buf' buf'.length lines'
          else readlinesLoop eol size rest buf' buf'.length lines'
        else
          if buf'.length = size then readlinesFinish buf' start lines
          else readlinesLoop eol size rest buf' start lines

/-- `Comm::readlines(size)`. -/
def readlines (eol : List Nat) (size : Nat) (stream : List Nat) : List (List Nat) :=
  readlinesLoop eol size stream [] 0 []

/-!  ## Partial I/O engine (`Serial::read_`, `Ether::read_`, `Serial::send_`,
`Ether::send_`)

Each loop iteration interacts with the OS (the `expired()` clock check, the
`select`-based readiness wait, one low-level `read`/`recv`/`write`/`send`).
The environment is a list of per-iteration outcomes. -/

/-- Outcome of one iteration of a transfer loop, as decided by the OS:
* `expire` — `timeout.expired()` returned true at the loop head;
* `notReady` — `expired()` false, but `waitRead_()`/`waitSend_()` returned
  less than 1 (select timeout, or select interrupted by a signal);
* `eintr` — ready, but the low-level transfer returned `-1` with
  `errno == EINTR`;
* `err` — ready, but the low-level transfer returned `-1` with some other
  `errno`;
* `avail n` — ready, and the OS had `n` bytes of data/space for the transfer
  (the call returns `min n requested`, by the POSIX guarantee that a transfer
  never exceeds the requested count; `avail 0` models a return of `0`, e.g. a
  peer that closed the connection). -/
inductive IterEv where
  | expire
  | notReady
  | eintr
  | err
  | avail (n : Nat)
deriving DecidableEq, Repr

/-- Model of one low-level `read`/`recv` call: the OS offers `offered` bytes
and the call requests `requested`; POSIX guarantees the returned count never
exceeds the request. -/
def osRead (offered requested : Nat) : Nat := min offered requested

/-- The read loop shared verbatim by `Serial::read_` (`serial.cc:39-57`) and
`Ether::read_` (`ether.cc:300-314`):

```
while (bytes_read < size) {
    if ( timeout.expired() || bytes_read_now == 0 ) break;
    if ( this->waitRead_() < 1 ) continue;
    bytes_read_now = ::read (fd_, data + bytes_read, size - bytes_read);
    if ( bytes_read_now == -1 && errno == EINTR) continue;
    if ( bytes_read_now < 1 )
        throw new InterfaceException ("… returned no data, disconnected?", errno);
    bytes_read += bytes_read_now; }
return bytes_read;
```

`bytesRead` is the running total, `lastNow` the current value of the C
variable `bytes_read_now` (an `ssize_t`).  `none` models running out of
environment events (the loop still spinning). -/
def readLoop (size : Nat) : List IterEv → Nat → Int → Option (Except CommError Nat)
  | [], bytesRead, lastNow =>
    if size ≤ bytesRead then some (.ok bytesRead)
    else if lastNow = 0 then some (.ok bytesRead)
    else none
  | ev :: rest, bytesRead, lastNow =>
    if size ≤ bytesRead then some (.ok bytesRead)
    else if lastNow = 0 then some (.ok bytesRead)
    else
      match ev with
      | .expire => some (.ok bytesRead)
      | .notReady => readLoop size rest bytesRead lastNow
      | .eintr => readLoop size rest bytesRead (-1)
      | .err => some (.error .interfaceError)
      | .avail n =>
        let r := osRead n (size - bytesRead)
        if r = 0 then some (.error .interfaceError)
        else readLoop size rest (bytesRead + r) (r : Int)

/-- Result of the optimistic pre-fill transfer issued before the loop
(`::read(fd_, data, size)` on a non-blocking descriptor / `::recv(…,
MSG_DONTWAIT)` / the initial `::send`): `none` models a `-1` return
(e.g. `EAGAIN`), `some n` models the OS offering `n` bytes. -/
def firstValue (size : Nat) : Option Nat → Int
  | none => -1
  | some n => (osRead n size : Nat)

/-- Embedding of `Serial::read_` (`src/unnamed/part_001:29-60`, file
`serial.cc`).  The flags guard mirrors
`if ( ! ( is_open_ && is_connected_ ) ) throw new ConnectionException …`,
then the pre-fill `::read` and the shared read loop run. -/
def serialRead (isOpen isConnected : Bool) (size : Nat) (first : Option Nat)
    (iters : List IterEv) : Option (Except CommError Nat) :=
  if isOpen && isConnected then
    readLoop size iters (firstValue size first).toNat (firstValue size first)
  else some (.error .connectionError)

/-- Embedding of `Ether::read_` (`src/src/utils.cc:291-316`, file `ether.cc`);
identical in structure to `Serial::read_`, with `::recv(…, MSG_DONTWAIT)` as
the low-level call. -/
def etherRead (isOpen isConnected : Bool) (size : Nat) (first : Option Nat)
    (iters : List IterEv) : Option (Except CommError Nat) :=
  if isOpen && isConnected then
    readLoop size iters (firstValue size first).toNat (firstValue size first)
  else some (.error .connectionError)

/-- The send loop of `Ether::send_` (`ether.cc:328-342`): like the read loop
but with no `bytes_sent_now == 0` break at the loop head, and
`bytes_sent_now` declared as a (signed) `ssize_t`, so a `-1` non-`EINTR`
return reaches the `bytes_sent_now < 1` test and throws. -/
def etherSendLoop (size : Nat) : List IterEv → Nat → Option (Except CommError Nat)
  | [], bytesSent =>
    if size ≤ bytesSent then some (.ok bytesSent) else none
  | ev :: rest, bytesSent =>
    if size ≤ bytesSent then some (.ok bytesSent)
    else
      match ev with
      | .expire => some (.ok bytesSent)
      | .notReady => etherSendLoop size rest bytesSent
      | .eintr => etherSendLoop size rest bytesSent
      | .err => some (.error .interfaceError)
      | .avail n =>
        let r := osRead n (size - bytesSent)
        if r = 0 then some (.error .interfaceError)
        else etherSendLoop size rest (bytesSent + r)

/-- Embedding of `Ether::send_` (`src/src/utils.cc:319-344`, file `ether.cc`):
flags guard, initial blocking `::send`, then the loop. -/
def etherSend (isOpen isConnected : Bool) (size : Nat) (first : Option Nat)
    (iters : List IterEv) : Option (Except CommError Nat) :=
  if isOpen && isConnected then
    etherSendLoop size iters (firstValue size first).toNat
  else some (.error .connectionError)

/-- Wrap-around modulus of the C `size_t` type (64-bit). -/
def W64 : Nat := 2 ^ 64

/-- The send loop of `Serial::send_` (`serial.cc:72-90`).  Unlike the other
three transfer loops, `bytes_sent_now` is declared `size_t` (unsigned):

```
size_t bytes_sent = 0, bytes_sent_now = 0;
while (bytes_sent < size) {
    if ( timeout.expired() ) break;
    if ( this->waitSend_() < 1 ) continue;
    bytes_sent_now = ::write (fd_, data + bytes_sent, size - bytes_sent);
    if ( bytes_sent_now == -1 && errno == EINTR) continue;
    if (bytes_sent_now < 1) throw new InterfaceException(…);
    bytes_sent += bytes_sent_now; }
```

A `::write` returning `-1` with `errno ≠ EINTR` is stored as `2^64 - 1`; the
unsigned `bytes_sent_now < 1` test is then false, so instead of throwing the
loop adds `2^64 - 1` to `bytes_sent` (modulo `2^64`).  All `size_t` sums are
taken `% W64`. -/
def serialSendLoop (size : Nat) : List IterEv → Nat → Option (Except CommError Nat)
  | [], bytesSent =>
    if size ≤ bytesSent then some (.ok bytesSent) else none
  | ev :: rest, bytesSent =>
    if size ≤ bytesSent then some (.ok bytesSent)
    else
      match ev with
      | .expire => some (.ok bytesSent)
      | .notReady => serialSendLoop size rest bytesSent
      | .eintr => serialSendLoop size rest bytesSent
      | .err => serialSendLoop size rest ((bytesSent + (W64 - 1)) % W64)
      | .avail n =>
        let r := osRead n (size - bytesSent)
        if r = 0 then some (.error .interfaceError)
        else serialSendLoop size rest ((bytesSent + r) % W64)

/-- Embedding of `Serial::send_` (`src/unnamed/part_001:63-93`, file
`serial.cc`): flags guard, no pre-fill transfer, then the loop starting from
`bytes_sent = 0`. -/
def serialSend (isOpen isConnected : Bool) (size : Nat)
    (iters : List IterEv) : Option (Except CommError Nat) :=
  if isOpen && isConnected then serialSendLoop size iters 0
  else some (.error .connectionError)

/-!  ## Channel state machine (`Comm`, `Serial`, `Ether` lifecycle)

The protected instance variables of class `Comm` (`comm.h:218-242`) form the
state; each public operation maps a state and an OS environment to the state
at completion (or at the throw point) together with the thrown error, if any.
The two mutexes serialize the operations, so the sequential step functions
below model the observable state evolution. -/

/-- The `Timeout` struct (`src/include/comm/utils.h:108-115`), after its
constructor has converted the four `double` budgets with `to_timeval`. -/
structure Timeout where
  read : Timeval
  send : Timeval
  byte : Timeval
  conn : Timeval
deriving DecidableEq, Repr

/-- Channel state: the instance variables of class `Comm` relevant to the
open/connect/configuration behavior.  The file descriptor is `none` when
invalid (`fd_ == -1`, or never assigned: an indeterminate descriptor is
modelled as invalid, on which `tcgetattr`/`fcntl`/`setsockopt` fail with
`EBADF`). -/
structure CommState where
  address : String
  baudrate : Nat
  port : Nat
  eol : List Nat
  is_open : Bool
  is_connected : Bool
  timeout : Timeout
  settings : Settings
  fd : Option Nat
deriving DecidableEq, Repr

/-- OS outcomes consulted by one structural operation:
* `openOk`/`newFd` — whether `::open`/`::socket` eventually succeeds (the
  transparent `EINTR` retry recursion of `open_` is collapsed) and the
  descriptor it returns;
* `closeOk` — whether `::close` returns 0;
* `tcOk` — whether `tcgetattr` succeeds on a valid descriptor;
* `sockOk` — whether `setsockopt`/`getsockopt` succeed on a valid descriptor;
* `parseOk` — whether `inet_pton` accepts the configured address;
* `fcntlOk` — whether `fcntl` succeeds on a valid descriptor;
* `connectOk` — whether `::connect` (including the bounded writability wait
  on `EINPROGRESS`) succeeds;
* `selectOk` — whether `select` in `waitRead_`/`waitSend_` avoids a
  non-`EINTR` error. -/
structure OsEnv where
  openOk : Bool
  newFd : Nat
  closeOk : Bool
  tcOk : Bool
  sockOk : Bool
  parseOk : Bool
  fcntlOk : Bool
  connectOk : Bool
  selectOk : Bool
deriving DecidableEq, Repr

/-- Environment in which every OS call succeeds. -/
def envAllOk : OsEnv := ⟨true, 3, true, true, true, true, true, true, true⟩

/-- Embedding of `Comm::close_` (`src/src/comm.cc:307-318`):

```
if ( this->is_open_ == true) {
    if ( this->fd_ != -1) {
        int result = ::close (fd_);
        if ( result != 0 ) throw new IOException ( "Comm::close", errno );
        this->fd_ = -1; }
    this->is_connected_ = false;
    this->is_open_ = false; }
```
-/
def commClose (env : OsEnv) (st : CommState) : CommState × Option CommError :=
  if st.is_open then
    match st.fd with
    | some _ =>
      if env.closeOk then
        ({ st with fd := none, is_connected := false, is_open := false }, none)
      else (st, some .ioError)
    | none => ({ st with is_connected := false, is_open := false }, none)
  else (st, none)

/-- Embedding of `Serial::open_` (`serial.cc:95-110`): no-op when already open
or the address is empty; otherwise `::open` the device (on failure `fd_` holds
the negative return, i.e. stays invalid, and an `IOException` is thrown). -/
def serialOpenPriv (env : OsEnv) (st : CommState) : CommState × Option CommError :=
  if st.is_open || st.address.isEmpty then (st, none)
  else if env.openOk then ({ st with fd := some env.newFd, is_open := true }, none)
  else ({ st with fd := none }, some .ioError)

/-- Embedding of `Serial::setOptions_` (`serial.cc:120-135`): `tcgetattr` (fails
on an invalid descriptor), line-discipline configuration, then

```
this->timeout_.byte = to_timeval( get_bytetime( this->baudrate_, this->settings_ ) );
```

The termios bit manipulation has no observable effect on the channel state
beyond the recomputed per-byte timeout. -/
def serialSetOptionsPriv (env : OsEnv) (st : CommState) : CommState × Option CommError :=
  match st.fd with
  | none => (st, some .ioError)
  | some _ =>
    if env.tcOk then
      match to_timeval (get_bytetime st.baudrate st.settings) with
      | .ok tv => ({ st with timeout := { st.timeout with byte := tv } }, none)
      | .error e => (st, some e)
    else (st, some .ioError)

/-- Embedding of `Serial::connect_` (`serial.cc:112-118`):

```
if ( this->is_connected_ ) return;
this->setOptions_();
this->is_connected_ = true;
```
-/
def serialConnectPriv (env : OsEnv) (st : CommState) : CommState × Option CommError :=
  if st.is_connected then (st, none)
  else
    match serialSetOptionsPriv env st with
    | (st', none) => ({ st' with is_connected := true }, none)
    | r => r

/-- Embedding of `Ether::open_` (`ether.cc:347-362`): no-op when already open;
otherwise create a stream socket (the `EINTR` retry recursion is collapsed
into `env.openOk`; on failure `fd_` holds the negative return). -/
def etherOpenPriv (env : OsEnv) (st : CommState) : CommState × Option CommError :=
  if st.is_open then (st, none)
  else if env.openOk then ({ st with fd := some env.newFd, is_open := true }, none)
  else ({ st with fd := none }, some .ioError)

/-- Embedding of `Ether::setOptions_` (`ether.cc:393-408`): `setsockopt` of the
read/send timeouts plus a `getsockopt(SO_ERROR)` probe; fails with an
`InterfaceException` on an invalid descriptor or an OS refusal.  No channel
state is modified. -/
def etherSetOptionsPriv (env : OsEnv) (st : CommState) : CommState × Option CommError :=
  match st.fd with
  | none => (st, some .interfaceError)
  | some _ => if env.sockOk then (st, none) else (st, some .interfaceError)

/-- Embedding of `Ether::connect_` (`ether.cc:364-391`): early return when
already connected or the address/port are unset; `set_address` (parse), the
`fcntl` unlock, the non-blocking `::connect` with its bounded writability
wait, the `fcntl` lock, `setOptions_`, and finally `is_connected_ = true`. -/
def etherConnectPriv (env : OsEnv) (st : CommState) : CommState × Option CommError :=
  if st.is_connected || st.address.isEmpty || st.port = 0 then (st, none)
  else if ¬ env.parseOk then (st, some .interfaceError)
  else
    match st.fd with
    | none => (st, some .ioError)
    | some _ =>
      if ¬ env.fcntlOk then (st, some .ioError)
      else if ¬ env.connectOk then (st, some .interfaceError)
      else
        match etherSetOptionsPriv env st with
        | (st', none) => ({ st' with is_connected := true }, none)
        | r => r

/-- Embedding of the public `Comm::open` (`comm.cc:33-40`): `open_()` then
`connect_()`, a thrown error in `open_` aborting the sequence.  The `openPriv`
and `connectPriv` arguments instantiate the virtual `open_`/`connect_`. -/
def commOpen (openPriv connectPriv : OsEnv → CommState → CommState × Option CommError)
    (env : OsEnv) (st : CommState) : CommState × Option CommError :=
  match openPriv env st with
  | (st', none) => connectPriv env st'
  | r => r

/-- Embedding of `Comm::setAddress` (`comm.cc:225-231`):

```
if ( this->address_.compare(address) == 0 ) return;
this->address_ = address;
boost::lock_guard … lock_read …; boost::lock_guard … lock_send …;
if ( this->is_connected_ ) { this->close_(); this->open_(); }
```

Note that on reconnect the *private* `open_` is called (not the public
`open()`), so `connect_` never runs.  `openPriv` instantiates the virtual
`open_`. -/
def commSetAddress (openPriv : OsEnv → CommState → CommState × Option CommError)
    (env : OsEnv) (st : CommState) (address : String) : CommState × Option CommError :=
  if st.address = address then (st, none)
  else
    let st1 := { st with address := address }
    if st1.is_connected then
      match commClose env st1 with
      | (st2, none) => openPriv env st2
      | r => r
    else (st1, none)

/-- Embedding of `Comm::setPort` (`comm.cc:236-242`), same shape as
`Comm::setAddress`. -/
def commSetPort (openPriv : OsEnv → CommState → CommState × Option CommError)
    (env : OsEnv) (st : CommState) (port : Nat) : CommState × Option CommError :=
  if st.port = port then (st, none)
  else
    let st1 := { st with port := port }
    if st1.is_connected then
      match commClose env st1 with
      | (st2, none) => openPriv env st2
      | r => r
    else (st1, none)

/-- Embedding of `Comm::setBaudrate` (`comm.cc:247-253`), same shape as
`Comm::setAddress`. -/
def commSetBaudrate (openPriv : OsEnv → CommState → CommState × Option CommError)
    (env : OsEnv) (st : CommState) (baudrate : Nat) : CommState × Option CommError :=
  if st.baudrate = baudrate then (st, none)
  else
    let st1 := { st with baudrate := baudrate }
    if st1.is_connected then
      match commClose env st1 with
      | (st2, none) => openPriv env st2
      | r => r
    else (st1, none)

/-- Embedding of `Comm::setTimeout` (`comm.cc:265-270`): store the new budgets,
then reapply device configuration via the virtual `setOptions_`. -/
def commSetTimeout (setOpt : OsEnv → CommState → CommState × Option CommError)
    (env : OsEnv) (st : CommState) (t : Timeout) : CommState × Option CommError :=
  setOpt env { st with timeout := t }

/-- Embedding of `Comm::setSettings` (`comm.cc:282-287`): store the new serial
settings, then reapply device configuration via the virtual `setOptions_`. -/
def commSetSettings (setOpt : OsEnv → CommState → CommState × Option CommError)
    (env : OsEnv) (st : CommState) (s : Settings) : CommState × Option CommError :=
  setOpt env { st with settings := s }

/-- Error component of a transfer outcome (the loops assign no channel
state, so only the thrown error is visible at the state-machine level). -/
def errOf : Option (Except CommError Nat) → Option CommError
  | some (.error e) => some e
  | _ => none

/-- Public operations of a channel (`src/include/comm/comm.h:60-187`).  The
read/readline/readlines/send family carries the transfer environment of §4.3;
`destructor` is `Comm::~Comm`, which closes under both locks. -/
inductive ChanOp where
  | openPub
  | closePub
  | flushPub
  | flushInputPub
  | flushOutputPub
  | waitReadPub
  | waitSendPub
  | readPub (size : Nat) (first : Option Nat) (iters : List IterEv)
  | readlinePub (size : Nat) (first : Option Nat) (iters : List IterEv)
  | readlinesPub (size : Nat) (first : Option Nat) (iters : List IterEv)
  | sendPub (size : Nat) (first : Option Nat) (iters : List IterEv)
  | setAddressPub (address : String)
  | setPortPub (port : Nat)
  | setBaudratePub (baudrate : Nat)
  | setEOLPub (eol : List Nat)
  | setTimeoutPub (t : Timeout)
  | setSettingsPub (s : Settings)
  | destructor
deriving DecidableEq, Repr

/-- State transition of one public operation on a `Serial` channel.  The
read/line/send bodies assign no member variable (they only read
`is_open_`/`is_connected_`/`fd_`/`eol_`/`timeout_`), so their state component
is the identity; `readlinePub`/`readlinesPub` report the error of their first
single-byte transfer (`size = 0` never reaches a transfer). -/
def serialStep (env : OsEnv) (st : CommState) : ChanOp → CommState × Option CommError
  | .openPub => commOpen serialOpenPriv serialConnectPriv env st
  | .closePub => commClose env st
  | .flushPub => (st, none)
  | .flushInputPub => (st, none)
  | .flushOutputPub => (st, none)
  | .waitReadPub => (st, if env.selectOk then none else some .ioError)
  | .waitSendPub => (st, if env.selectOk then none else some .ioError)
  | .readPub size first iters =>
    (st, errOf (serialRead st.is_open st.is_connected size first iters))
  | .readlinePub size first iters =>
    (st, if size = 0 then none
         else errOf (serialRead st.is_open st.is_connected 1 first iters))
  | .readlinesPub size first iters =>
    (st, if size = 0 then none
         else errOf (serialRead st.is_open st.is_connected 1 first iters))
  | .sendPub size _ iters =>
    (st, errOf (serialSend st.is_open st.is_connected size iters))
  | .setAddressPub a => commSetAddress serialOpenPriv env st a
  | .setPortPub p => commSetPort serialOpenPriv env st p
  | .setBaudratePub b => commSetBaudrate serialOpenPriv env st b
  | .setEOLPub e => ({ st with eol := e }, none)
  | .setTimeoutPub t => commSetTimeout serialSetOptionsPriv env st t
  | .setSettingsPub s => commSetSettings serialSetOptionsPriv env st s
  | .destructor => commClose env st

/-- State transition of one public operation on an `Ether` channel.  `Ether`
does not override the `flush` family, which is a no-op in `Comm`
(`comm.cc:374-376`). -/
def etherStep (env : OsEnv) (st : CommState) : ChanOp → CommState × Option CommError
  | .openPub => commOpen etherOpenPriv etherConnectPriv env st
  | .closePub => commClose env st
  | .flushPub => (st, none)
  | .flushInputPub => (st, none)
  | .flushOutputPub => (st, none)
  | .waitReadPub => (st, if env.selectOk then none else some .ioError)
  | .waitSendPub => (st, if env.selectOk then none else some .ioError)
  | .readPub size first iters =>
    (st, errOf (etherRead st.is_open st.is_connected size first iters))
  | .readlinePub size first iters =>
    (st, if size = 0 then none
         else errOf (etherRead st.is_open st.is_connected 1 first iters))
  | .readlinesPub size first iters =>
    (st, if size = 0 then none
         else errOf (etherRead st.is_open st.is_connected 1 first iters))
  | .sendPub size first iters =>
    (st, errOf (etherSend st.is_open st.is_connected size first iters))
  | .setAddressPub a => commSetAddress etherOpenPriv env st a
  | .setPortPub p => commSetPort etherOpenPriv env st p
  | .setBaudratePub b => commSetBaudrate etherOpenPriv env st b
  | .setEOLPub e => ({ st with eol := e }, none)
  | .setTimeoutPub t => commSetTimeout etherSetOptionsPriv env st t
  | .setSettingsPub s => commSetSettings etherSetOptionsPriv env st s
  | .destructor => commClose env st

/-- State of a freshly constructed channel (`comm.cc:23-24`, `comm.h:229-236`):
`is_open_` and `is_connected_` initialize to `false`; `fd_` is never assigned
before `open_` runs, hence invalid in the model. -/
def initState (address : String) (baudrate port : Nat) (eol : List Nat)
    (timeout : Timeout) (settings : Settings) : CommState :=
  ⟨address, baudrate, port, eol, false, false, timeout, settings, none⟩

/-- The channel invariant: `is_connected ⇒ is_open`, strengthened with the
spec's handle-validity invariant (a handle is valid iff `is_open`), which the
preservation argument needs. -/
def ChanInv (st : CommState) : Prop :=
  (st.is_connected = true → st.is_open = true) ∧ st.fd.isSome = st.is_open

instance (st : CommState) : Decidable (ChanInv st) := by
  unfold ChanInv; infer_instance

/-- A concrete `Serial` channel in the `Connected` state (device open on
descriptor 3, default 8-N-1 settings at 9600 baud). -/
def serialConnectedExample : CommState :=
  ⟨"/dev/ttyS0", 9600, 0, [10], true, true,
   ⟨⟨1, 0⟩, ⟨1, 0⟩, ⟨0, 1042⟩, ⟨1, 0⟩⟩, ⟨.eight, .nopar, .one, .noflow⟩, some 3⟩

end CommLib

namespace CommLib

/-!  ## Theorems -/

/-- C1.  The claim states that `readlines(size_limit)` splits the consumed
stream on every occurrence of the end-of-line marker, and in particular that
with marker `"\n"` and stream bytes `"AB\nCDE\n"`, `read_lines(7)` returns
exactly `["AB", "CDE"]`.  The code does the opposite: its split condition is
the raw value of `strncmp`, which is non-zero exactly on a *mismatch* with the
marker (the adjacent comment `// EOL found` documents the intended meaning),
so the stream is split after every byte that does not match and never at the
marker itself: `read_lines(7)` on `"AB\nCDE\n"` returns
`["A", "B", "\nC", "D", "E", "\n"]`. -/
theorem readlines_splits_on_mismatch :
    readlines [10] 7 [65, 66, 10, 67, 68, 69, 10] =
      [[65], [66], [10, 67], [68], [69], [10]] ∧
    readlines [10] 7 [65, 66, 10, 67, 68, 69, 10] ≠ [[65, 66], [67, 68, 69]] := by
  constructor
  · rfl
  · decide

/-- C2 counterexample.  The claim states that `readline` never returns the
end-of-line marker as a suffix of the line when the marker was found.  On the
stream `"AB\nCDE\n"` with marker `"\n"` and `size_limit = 7`, the code stops
at the marker but appends all `read_so_far` bytes — marker included — so the
returned line is `"AB\n"`, which has the marker as a suffix. -/
theorem readline_returns_marker_suffix :
    readline [10] 7 [65, 66, 10, 67, 68, 69, 10] = [65, 66] ++ [10] ∧
    [10] <:+ readline [10] 7 [65, 66, 10, 67, 68, 69, 10] := by
  constructor
  · rfl
  · exact ⟨[65, 66], rfl⟩

/-- C3.  The claim states that `setBaudrate` on a connected channel closes and
reopens the channel and that `is_connected()` is true again afterwards.  The
setter however calls the private `open_()` — not the public `open()` — and
`open_` never calls `connect_`, so the channel is left open but *disconnected*
(`is_connected() == false`), and a subsequent read throws
`ConnectionException` instead of working: the implicit reconnect promised by
the spec (and by the setter's own purpose) never completes. -/
theorem setBaudrate_leaves_channel_disconnected :
    (serialStep envAllOk serialConnectedExample (.setBaudratePub 115200)).2 = none ∧
    (serialStep envAllOk serialConnectedExample (.setBaudratePub 115200)).1.is_open = true ∧
    (serialStep envAllOk serialConnectedExample
      (.setBaudratePub 115200)).1.is_connected = false ∧
    (serialStep envAllOk
      ((serialStep envAllOk serialConnectedExample (.setBaudratePub 115200)).1)
      (.readPub 1 (some 1) [])).2 = some .connectionError := by
  refine ⟨rfl, rfl, rfl, rfl⟩

/-- C4 counterexample.  The deadline computed by the `TimeCheck` constructor
from a 1-second base budget at monotonic instant `(5 s, 200 ns)` is the pair
`(6 s, 200 ns)`; 100 nanoseconds later, at `(5 s, 300 ns)` — a full second
before the deadline as a point in time — `expired()` already returns `true`,
because it compares the seconds and nanoseconds fields independently
(`sec < sec || nsec < nsec`) rather than as a single point in time. -/
theorem expired_fires_before_deadline :
    timeCheckDeadline ⟨1, 0⟩ ⟨0, 0⟩ 1 ⟨5, 200⟩ = ⟨6, 200⟩ ∧
    timeCheckExpired (timeCheckDeadline ⟨1, 0⟩ ⟨0, 0⟩ 1 ⟨5, 200⟩) ⟨5, 300⟩ = true ∧
    Timespec.val ⟨5, 300⟩ < Timespec.val (timeCheckDeadline ⟨1, 0⟩ ⟨0, 0⟩ 1 ⟨5, 200⟩) := by
  refine ⟨rfl, rfl, ?_⟩
  simp only [timeCheckDeadline, Timespec.val]
  norm_num

/-- C4 amended.  The deadline pair computed by the `TimeCheck` constructor
denotes exactly `now + base + per_byte × size × 2` seconds on the monotonic
clock (the nanosecond field is left unnormalized but the denoted instant is
exact), and `expired(deadline)` returns `true` *whenever* the clock reading
taken at call time is past that deadline — but not *exactly* then: it compares
the seconds and nanoseconds fields independently with a disjunction, so it can
also fire early; what holds exactly is that a `false` answer guarantees the
deadline has not passed. -/
theorem timecheck_deadline_value_and_expired :
    (∀ (timeout byte : Timeval) (size : Nat) (now : Timespec),
      (timeCheckDeadline timeout byte size now).val =
        now.val + timeout.val + byte.val * size * 2) ∧
    (∀ d now : Timespec, d.val < now.val → timeCheckExpired d now = true) ∧
    (∀ d now : Timespec, timeCheckExpired d now = false → now.val ≤ d.val) := by
  have hfalse : ∀ d now : Timespec, timeCheckExpired d now = false → now.val ≤ d.val := by
    intro d now h
    simp only [timeCheckExpired, Bool.or_eq_false_iff, decide_eq_false_iff_not,
      Nat.not_lt] at h
    simp only [Timespec.val]
    have h1 : (now.tv_sec : ℚ) ≤ d.tv_sec := by exact_mod_cast h.1
    have h2 : (now.tv_nsec : ℚ) ≤ d.tv_nsec := by exact_mod_cast h.2
    have h3 : (now.tv_nsec : ℚ) / 1000000000 ≤ (d.tv_nsec : ℚ) / 1000000000 := by
      apply div_le_div_of_nonneg_right h2 (by norm_num) |>.trans_eq rfl
    linarith
  refine ⟨?_, ?_, hfalse⟩
  · intro timeout byte size now
    simp only [timeCheckDeadline, Timespec.val, Timeval.val]
    push_cast
    field_simp
    ring
  · intro d now h
    by_contra hne
    have : timeCheckExpired d now = false := by
      cases hb : timeCheckExpired d now
      · rfl
      · exact absurd hb hne
    exact absurd h (not_lt.mpr (hfalse d now this))

/-- C7.  The claim states that in every transfer loop a zero-or-negative
low-level return after readiness (other than `EINTR`) fails with
`InterfaceError`.  This holds in `Serial::read_`, `Ether::read_` and
`Ether::send_`, but `Serial::send_` stores the `::write` result in a `size_t`:
a `-1` non-`EINTR` return becomes `2^64 - 1`, passes the unsigned
`bytes_sent_now < 1` test, and is *added to the running count*, which wraps —
the function returns the absurd count `2^64 - 1` instead of throwing.  An
interrupted transfer is retried with no progress counted in all four loops. -/
theorem serialSend_wraps_instead_of_throwing :
    serialSend true true 5 [.err] = some (.ok (2 ^ 64 - 1)) ∧
    etherSend true true 5 none [.err] = some (.error .interfaceError) ∧
    serialRead true true 5 none [.err] = some (.error .interfaceError) ∧
    etherRead true true 5 none [.avail 0] = some (.error .interfaceError) ∧
    serialRead true true 5 (some 2) [.eintr, .avail 3] = some (.ok 5) := by
  refine ⟨?_, rfl, rfl, rfl, rfl⟩
  show serialSendLoop 5 [.err] 0 = some (.ok (2 ^ 64 - 1))
  rw [serialSendLoop]
  norm_num [serialSendLoop, W64]

/-- C9 counterexample.  The claim states that the per-byte transmission-time
formula charges the parity bit at most one bit time regardless of the parity
mode.  `get_bytetime` adds the raw `Parity` enum value instead: with even
parity (`EVEN = 2`), 8 data bits and one stop bit at 9600 baud the computed
byte time is `12/9600` seconds, which no parity cost `c ≤ 1` can produce in
the claimed formula `(1 + 8 + c + 1)/9600`. -/
theorem parity_cost_exceeds_one_bit :
    ¬ ∃ c : ℚ, 0 ≤ c ∧ c ≤ 1 ∧
      get_bytetime 9600 ⟨.eight, .even, .one, .noflow⟩ = (1 + 8 + c + 1) / 9600 := by
  rintro ⟨c, h0, h1, h⟩
  simp only [get_bytetime, ByteSize.val, Parity.val, StopBits.val] at h
  rw [if_neg (by decide : ¬ (StopBits.one = StopBits.halfone))] at h
  norm_num at h
  linarith

/-- C5.  `to_timeval` fails with the range error for every negative input and
for every input of at least `2^32` seconds (beyond the dual 32-bit range), and
otherwise returns a normalized pair: microseconds below `10^6`, with the total
`sec·10^6 + usec` equal to the input rounded to the nearest microsecond
(overflow microseconds carried into seconds).  In particular `to_timeval (-1)`
and `to_timeval 2^32` fail, and `to_timeval 1.5 = {1, 500000}`. -/
theorem to_timeval_range_and_rounding :
    (∀ q : ℚ, q < 0 → to_timeval q = .error .rangeError) ∧
    (∀ q : ℚ, (4294967296 : ℚ) ≤ q → to_timeval q = .error .rangeError) ∧
    (∀ (q : ℚ) (tv : Timeval), to_timeval q = .ok tv →
      tv.tv_usec < 1000000 ∧
      (tv.tv_sec : ℤ) * 1000000 + (tv.tv_usec : ℤ) = ⌊q * 1000000 + 1 / 2⌋) ∧
    to_timeval (-1) = .error .rangeError ∧
    to_timeval 4294967296 = .error .rangeError ∧
    to_timeval (3 / 2) = .ok ⟨1, 500000⟩ := by
  have h1 : ∀ q : ℚ, q < 0 → to_timeval q = .error .rangeError := by
    intro q hq
    have h : ⌊q⌋ < 0 := by
      rw [Int.floor_lt]
      exact_mod_cast hq
    simp only [to_timeval]
    rw [if_pos (Or.inl h)]
  have h2 : ∀ q : ℚ, (4294967296 : ℚ) ≤ q → to_timeval q = .error .rangeError := by
    intro q hq
    have h : (4294967295 : ℤ) < ⌊q⌋ := by
      have : (4294967296 : ℤ) ≤ ⌊q⌋ := Int.le_floor.mpr (by exact_mod_cast hq)
      omega
    simp only [to_timeval]
    rw [if_pos (Or.inr h)]
  refine ⟨h1, h2, ?_, h1 (-1) (by norm_num), h2 4294967296 (le_refl _), ?_⟩
  · intro q tv h
    simp only [to_timeval] at h
    by_cases hc : ⌊q⌋ < 0 ∨ (4294967295 : ℤ) < ⌊q⌋
    · rw [if_pos hc] at h
      exact absurd h (by simp)
    · rw [if_neg hc] at h
      push_neg at hc
      obtain ⟨hc0, hc1⟩ := hc
      have hfr : (0 : ℚ) ≤ q - ⌊q⌋ := sub_nonneg.mpr (Int.floor_le q)
      have hu0 : 0 ≤ ⌊(q - (⌊q⌋ : ℚ)) * 1000000 + 1 / 2⌋ := by
        apply Int.le_floor.mpr
        push_cast
        nlinarith
      set u : ℤ := ⌊(q - (⌊q⌋ : ℚ)) * 1000000 + 1 / 2⌋ with hu
      have htv : tv = ⟨⌊q⌋.toNat + u.toNat / 1000000, u.toNat % 1000000⟩ := by
        cases h
        rfl
      subst htv
      refine ⟨Nat.mod_lt _ (by norm_num), ?_⟩
      have hnat : (⌊q⌋.toNat + u.toNat / 1000000) * 1000000 + u.toNat % 1000000 =
          ⌊q⌋.toNat * 1000000 + u.toNat := by omega
      have harg : q * 1000000 + 1 / 2 =
          ((q - (⌊q⌋ : ℚ)) * 1000000 + 1 / 2) + ((⌊q⌋ * 1000000 : ℤ) : ℚ) := by
        push_cast
        ring
      have hfloor : ⌊q * 1000000 + 1 / 2⌋ = u + ⌊q⌋ * 1000000 := by
        rw [harg, Int.floor_add_int]
      rw [hfloor]
      have hq' : (⌊q⌋.toNat : ℤ) = ⌊q⌋ := Int.toNat_of_nonneg (not_lt.mp (by omega))
      have hu' : (u.toNat : ℤ) = u := Int.toNat_of_nonneg hu0
      push_cast [hnat]
      rw [hq', hu']
      omega
  · norm_num [to_timeval]
    constructor <;> rfl

/-- C5 witness: the range check rejects `-2` seconds. -/
theorem to_timeval_range_witness : to_timeval (-2) = .error .rangeError :=
  to_timeval_range_and_rounding.1 (-2) (by simp)

/-- C4 witness: at `(7 s, 900 ns)` against a clock reading of `(6 s, 800 ns)`
the deadline has not expired, so the clock has not passed the deadline. -/
theorem timecheck_expired_witness :
    Timespec.val ⟨6, 800⟩ ≤ Timespec.val ⟨7, 900⟩ :=
  timecheck_deadline_value_and_expired.2.2 ⟨7, 900⟩ ⟨6, 800⟩ rfl

/-- Unfolding equation of `readlineLoop` on an exhausted stream: the one-byte
transfer returns 0, so the loop breaks and the accumulated buffer is
returned. -/
theorem readlineLoop_nil (eol : List Nat) (size : Nat) (buf : List Nat) :
    readlineLoop eol size [] buf = buf := by
  rw [readlineLoop]
  split <;> rfl

/-- Unfolding equation of `readlineLoop` on a non-empty stream: size check,
read one byte, skip the comparison while fewer than `eol_len_` bytes are
accumulated, break when the trailing bytes equal the marker. -/
theorem readlineLoop_cons (eol : List Nat) (size : Nat) (b : Nat) (rest buf : List Nat) :
    readlineLoop eol size (b :: rest) buf =
      if size ≤ buf.length then buf
      else if (buf ++ [b]).length < eol.length then readlineLoop eol size rest (buf ++ [b])
      else if (buf ++ [b]).drop ((buf ++ [b]).length - eol.length) = eol then buf ++ [b]
      else readlineLoop eol size rest (buf ++ [b]) := by
  rw [readlineLoop]

/-- Invariant of the `Comm::readline` loop: starting from an accumulated
buffer within the size limit, the loop appends a prefix of the remaining
stream, stays within the size limit, and stops for one of three reasons —
the limit was reached, the stream was exhausted (single-byte timeout), or the
trailing `eol_len_` accumulated bytes equal the marker. -/
theorem readlineLoop_spec (eol : List Nat) (size : Nat) :
    ∀ (stream buf : List Nat), buf.length ≤ size →
      ∃ t : List Nat,
        readlineLoop eol size stream buf = buf ++ t ∧
        t <+: stream ∧
        (buf ++ t).length ≤ size ∧
        ((buf ++ t).length = size ∨ t = stream ∨
          (buf ++ t).drop ((buf ++ t).length - eol.length) = eol) := by
  intro stream
  induction stream with
  | nil =>
    intro buf hb
    exact ⟨[], by rw [readlineLoop_nil, List.append_nil], List.nil_prefix,
      by simpa, Or.inr (Or.inl rfl)⟩
  | cons b rest ih =>
    intro buf hb
    rw [readlineLoop_cons]
    by_cases hsz : size ≤ buf.length
    · refine ⟨[], by rw [if_pos hsz, List.append_nil], List.nil_prefix, by simpa, ?_⟩
      refine Or.inl ?_
      rw [List.append_nil]
      omega
    · rw [if_neg hsz]
      have hb' : (buf ++ [b]).length ≤ size := by
        rw [List.length_append, List.length_singleton]
        omega
      have hassoc : ∀ t' : List Nat, (buf ++ [b]) ++ t' = buf ++ (b :: t') := by
        intro t'
        rw [List.append_assoc, List.singleton_append]
      by_cases he : (buf ++ [b]).length < eol.length
      · rw [if_pos he]
        obtain ⟨t', h1, h2, h3, h4⟩ := ih (buf ++ [b]) hb'
        obtain ⟨s, hs⟩ := h2
        refine ⟨b :: t', by rw [h1, hassoc], ⟨s, by rw [List.cons_append, hs]⟩,
          by rw [← hassoc]; exact h3, ?_⟩
        rcases h4 with h4 | h4 | h4
        · exact Or.inl (by rw [← hassoc]; exact h4)
        · exact Or.inr (Or.inl (by rw [h4]))
        · exact Or.inr (Or.inr (by rw [← hassoc]; exact h4))
      · rw [if_neg he]
        by_cases hm : (buf ++ [b]).drop ((buf ++ [b]).length - eol.length) = eol
        · rw [if_pos hm]
          exact ⟨[b], rfl, ⟨rest, rfl⟩, hb', Or.inr (Or.inr hm)⟩
        · rw [if_neg hm]
          obtain ⟨t', h1, h2, h3, h4⟩ := ih (buf ++ [b]) hb'
          obtain ⟨s, hs⟩ := h2
          refine ⟨b :: t', by rw [h1, hassoc], ⟨s, by rw [List.cons_append, hs]⟩,
            by rw [← hassoc]; exact h3, ?_⟩
          rcases h4 with h4 | h4 | h4
          · exact Or.inl (by rw [← hassoc]; exact h4)
          · exact Or.inr (Or.inl (by rw [h4]))
          · exact Or.inr (Or.inr (by rw [← hassoc]; exact h4))

/-- C2 amended.  For every channel with a non-empty end-of-line marker,
`readline(size_limit)` returns a prefix of the stream of at most `size_limit`
bytes, and reading stops either because the limit was reached, because the
stream produced no further byte (timeout), or because the trailing consumed
bytes equal the marker — in which case the marker is *included* in the
returned line as its suffix (the code appends all `read_so_far` bytes,
marker included, to the output buffer). -/
theorem readline_stops_marker_included :
    ∀ (eol : List Nat) (size : Nat) (stream : List Nat), eol ≠ [] →
      (readline eol size stream).length ≤ size ∧
      readline eol size stream <+: stream ∧
      ((readline eol size stream).length = size ∨
        readline eol size stream = stream ∨
        eol <:+ readline eol size stream) := by
  intro eol size stream _
  obtain ⟨t, h1, h2, h3, h4⟩ := readlineLoop_spec eol size stream [] (Nat.zero_le _)
  have hr : readline eol size stream = t := by
    rw [readline, h1, List.nil_append]
  rw [List.nil_append] at h3 h4
  rw [hr]
  refine ⟨h3, h2, ?_⟩
  rcases h4 with h4 | h4 | h4
  · exact Or.inl h4
  · exact Or.inr (Or.inl h4)
  · exact Or.inr (Or.inr (h4 ▸ List.drop_suffix _ _))

/-- C2 amended witness: with marker `"\n"`, limit 3 and stream `"A\nB"` the
returned line is a bounded prefix that ends at the size limit, the stream end,
or the marker. -/
theorem readline_stops_marker_included_witness :
    (readline [10] 3 [65, 10, 66]).length ≤ 3 ∧
    readline [10] 3 [65, 10, 66] <+: [65, 10, 66] ∧
    ((readline [10] 3 [65, 10, 66]).length = 3 ∨
      readline [10] 3 [65, 10, 66] = [65, 10, 66] ∨
      [10] <:+ readline [10] 3 [65, 10, 66]) :=
  readline_stops_marker_included [10] 3 [65, 10, 66] (by decide)

/-- Unfolding of `readLoop` when the requested size is already satisfied: the
loop condition `bytes_read < size` fails and the total is returned. -/
theorem readLoop_done (size : Nat) (iters : List IterEv) (b : Nat) (l : Int)
    (h : size ≤ b) : readLoop size iters b l = some (.ok b) := by
  cases iters with
  | nil => rw [readLoop, if_pos h]
  | cons ev rest => cases ev <;> rw [readLoop, if_pos h]

/-- Unfolding of `readLoop` when the previous transfer moved zero bytes: the
loop head breaks and the partial total is returned normally. -/
theorem readLoop_zero (size : Nat) (iters : List IterEv) (b : Nat) (l : Int)
    (h1 : ¬ size ≤ b) (h2 : l = 0) : readLoop size iters b l = some (.ok b) := by
  cases iters with
  | nil => rw [readLoop, if_neg h1, if_pos h2]
  | cons ev rest => cases ev <;> rw [readLoop, if_neg h1, if_pos h2]

/-- Unfolding of `readLoop` when the environment is exhausted mid-loop. -/
theorem readLoop_nil_run (size : Nat) (b : Nat) (l : Int)
    (h1 : ¬ size ≤ b) (h2 : l ≠ 0) : readLoop size [] b l = none := by
  rw [readLoop, if_neg h1, if_neg h2]

/-- Unfolding of `readLoop` on a deadline expiry: the partial count is a
normal successful return. -/
theorem readLoop_cons_expire (size : Nat) (rest : List IterEv) (b : Nat) (l : Int)
    (h1 : ¬ size ≤ b) (h2 : l ≠ 0) :
    readLoop size (.expire :: rest) b l = some (.ok b) := by
  rw [readLoop, if_neg h1, if_neg h2]

/-- Unfolding of `readLoop` when the readiness wait reports not ready:
`continue` re-enters the loop with nothing changed. -/
theorem readLoop_cons_notReady (size : Nat) (rest : List IterEv) (b : Nat) (l : Int)
    (h1 : ¬ size ≤ b) (h2 : l ≠ 0) :
    readLoop size (.notReady :: rest) b l = readLoop size rest b l := by
  rw [readLoop, if_neg h1, if_neg h2]

/-- Unfolding of `readLoop` on an interrupted transfer: `continue` re-enters
the loop with the count unchanged and `bytes_read_now = -1`. -/
theorem readLoop_cons_eintr (size : Nat) (rest : List IterEv) (b : Nat) (l : Int)
    (h1 : ¬ size ≤ b) (h2 : l ≠ 0) :
    readLoop size (.eintr :: rest) b l = readLoop size rest b (-1) := by
  rw [readLoop, if_neg h1, if_neg h2]

/-- Unfolding of `readLoop` on a non-interrupted negative transfer return:
the loop throws `InterfaceException`. -/
theorem readLoop_cons_err (size : Nat) (rest : List IterEv) (b : Nat) (l : Int)
    (h1 : ¬ size ≤ b) (h2 : l ≠ 0) :
    readLoop size (.err :: rest) b l = some (.error .interfaceError) := by
  rw [readLoop, if_neg h1, if_neg h2]

/-- Unfolding of `readLoop` on a transfer that was offered `n` bytes. -/
theorem readLoop_cons_avail (size : Nat) (rest : List IterEv) (n b : Nat) (l : Int)
    (h1 : ¬ size ≤ b) (h2 : l ≠ 0) :
    readLoop size (.avail n :: rest) b l =
      if osRead n (size - b) = 0 then some (.error .interfaceError)
      else readLoop size rest (b + osRead n (size - b)) (osRead n (size - b)) := by
  rw [readLoop, if_neg h1, if_neg h2]

/-- Boundedness of the read loop: starting from a running total within the
requested size, every normal return is within the requested size. -/
theorem readLoop_ok_le (size : Nat) :
    ∀ (iters : List IterEv) (b : Nat) (l : Int), b ≤ size →
      ∀ c : Nat, readLoop size iters b l = some (.ok c) → c ≤ size := by
  intro iters
  induction iters with
  | nil =>
    intro b l hb c h
    by_cases h1 : size ≤ b
    · rw [readLoop_done size _ b l h1] at h
      simp only [Option.some.injEq, Except.ok.injEq] at h
      omega
    · by_cases h2 : l = 0
      · rw [readLoop_zero size _ b l h1 h2] at h
        simp only [Option.some.injEq, Except.ok.injEq] at h
        omega
      · rw [readLoop_nil_run size b l h1 h2] at h
        exact absurd h (by simp)
  | cons ev rest ih =>
    intro b l hb c h
    by_cases h1 : size ≤ b
    · rw [readLoop_done size _ b l h1] at h
      simp only [Option.some.injEq, Except.ok.injEq] at h
      omega
    · by_cases h2 : l = 0
      · rw [readLoop_zero size _ b l h1 h2] at h
        simp only [Option.some.injEq, Except.ok.injEq] at h
        omega
      · cases ev with
        | expire =>
          rw [readLoop_cons_expire size rest b l h1 h2] at h
          simp only [Option.some.injEq, Except.ok.injEq] at h
          omega
        | notReady =>
          rw [readLoop_cons_notReady size rest b l h1 h2] at h
          exact ih b l hb c h
        | eintr =>
          rw [readLoop_cons_eintr size rest b l h1 h2] at h
          exact ih b (-1) hb c h
        | err =>
          rw [readLoop_cons_err size rest b l h1 h2] at h
          exact absurd h (by simp)
        | avail n =>
          rw [readLoop_cons_avail size rest n b l h1 h2] at h
          by_cases h3 : osRead n (size - b) = 0
          · rw [if_pos h3] at h
            exact absurd h (by simp)
          · rw [if_neg h3] at h
            refine ih _ _ ?_ c h
            have := Nat.min_le_right n (size - b)
            simp only [osRead] at *
            omega

/-- C6.  For every `size > 0`, every transfer environment and every open,
connected channel (serial or ethernet), a normal return of `read(size)` is a
count of at most `size` bytes; moreover a deadline expiry with a partial
count is always a normal successful return of that partial count, never an
exception (the `expire` branch of the loop returns `ok`). -/
theorem read_count_le_size :
    ∀ (size : Nat) (first : Option Nat) (iters : List IterEv) (c : Nat), 0 < size →
      ((serialRead true true size first iters = some (.ok c) → c ≤ size) ∧
       (etherRead true true size first iters = some (.ok c) → c ≤ size)) ∧
      (∀ (b : Nat) (l : Int) (rest : List IterEv), b < size → l ≠ 0 →
        readLoop size (.expire :: rest) b l = some (.ok b)) := by
  intro size first iters c _
  have hfv : (firstValue size first).toNat ≤ size := by
    cases first with
    | none => simp [firstValue]
    | some n =>
      simp only [firstValue, osRead, Int.toNat_natCast]
      exact Nat.min_le_right n size
  constructor
  · constructor
    · intro h
      simp only [serialRead, Bool.and_self, if_pos] at h
      exact readLoop_ok_le size iters _ _ hfv c h
    · intro h
      simp only [etherRead, Bool.and_self, if_pos] at h
      exact readLoop_ok_le size iters _ _ hfv c h
  · intro b l rest hb hl
    exact readLoop_cons_expire size rest b l (Nat.not_le.mpr hb) hl

/-- C6 witness: with one byte read out of two requested, a deadline expiry
returns the partial count 1 normally. -/
theorem read_count_le_size_witness :
    readLoop 2 [.expire] 1 1 = some (.ok 1) :=
  (read_count_le_size 2 (some 1) [.expire] 1 (by decide)).2 1 1 [] (by decide) (by decide)

/-- Contraposition helper for Boolean implications. -/
theorem bool_imp_false {a b : Bool} (h : a = true → b = true) (hb : b = false) :
    a = false := by
  cases ha : a
  · rfl
  · exact absurd (h ha) (by simp [hb])

/-- `Comm::close_` preserves the channel invariant: on success both flags are
cleared and the descriptor invalidated together; on a `::close` failure the
state is unchanged at the throw. -/
theorem chanInv_commClose (env : OsEnv) (st : CommState) (h : ChanInv st) :
    ChanInv (commClose env st).1 := by
  obtain ⟨h1, h2⟩ := h
  unfold commClose
  by_cases ho : st.is_open = true
  · cases hfd : st.fd with
    | some v =>
      by_cases hc : env.closeOk = true
      · simp [ho, hfd, hc, ChanInv]
      · simp [ho, hfd, hc, ChanInv, h1, h2]
    | none =>
      simp [ho, hfd, ChanInv]
  · simp only [Bool.not_eq_true] at ho
    simp [ho, ChanInv, h2, bool_imp_false h1 ho]

/-- `Serial::open_` preserves the channel invariant: descriptor and
`is_open_` are established together, and it only runs from a closed state. -/
theorem chanInv_serialOpenPriv (env : OsEnv) (st : CommState) (h : ChanInv st) :
    ChanInv (serialOpenPriv env st).1 := by
  obtain ⟨h1, h2⟩ := h
  unfold serialOpenPriv
  by_cases ho : (st.is_open || st.address.isEmpty) = true
  · rw [if_pos ho]
    exact ⟨h1, h2⟩
  · simp only [Bool.or_eq_true, not_or, Bool.not_eq_true] at ho
    have hcn : st.is_connected = false := bool_imp_false h1 ho.1
    by_cases hk : env.openOk = true
    · simp [ho.1, ho.2, hk, ChanInv, hcn]
    · simp [ho.1, ho.2, hk, ChanInv, hcn]

/-- `Serial::setOptions_` never changes the open/connected flags or the
descriptor — it only reconfigures the device and the per-byte timeout. -/
theorem serialSetOptionsPriv_flags (env : OsEnv) (st : CommState) :
    (serialSetOptionsPriv env st).1.is_open = st.is_open ∧
    (serialSetOptionsPriv env st).1.is_connected = st.is_connected ∧
    (serialSetOptionsPriv env st).1.fd = st.fd := by
  unfold serialSetOptionsPriv
  cases hfd : st.fd with
  | none => simp [hfd]
  | some v =>
    by_cases hk : env.tcOk = true
    · cases htv : to_timeval (get_bytetime st.baudrate st.settings) with
      | ok tv => simp [hk, htv, hfd]
      | error e => simp [hk, htv, hfd]
    · simp [hk, hfd]

/-- If `Serial::setOptions_` did not throw, the descriptor was valid, hence —
by the handle-validity invariant — the channel was open. -/
theorem serialSetOptionsPriv_ok_open (env : OsEnv) (st : CommState) (h : ChanInv st)
    (hok : (serialSetOptionsPriv env st).2 = none) : st.is_open = true := by
  unfold serialSetOptionsPriv at hok
  cases hfd : st.fd with
  | none => rw [hfd] at hok; simp at hok
  | some v =>
    have h2 := h.2
    rw [hfd] at h2
    simpa using h2.symm

/-- `Serial::setOptions_` preserves the channel invariant. -/
theorem chanInv_serialSetOptionsPriv (env : OsEnv) (st : CommState) (h : ChanInv st) :
    ChanInv (serialSetOptionsPriv env st).1 := by
  obtain ⟨f1, f2, f3⟩ := serialSetOptionsPriv_flags env st
  exact ⟨fun hc => f1 ▸ h.1 (f2 ▸ hc), by rw [f3, f1]; exact h.2⟩

/-- `Serial::connect_` preserves the channel invariant: `is_connected_` is set
only after `setOptions_` succeeded, which requires a valid descriptor and
hence an open channel. -/
theorem chanInv_serialConnectPriv (env : OsEnv) (st : CommState) (h : ChanInv st) :
    ChanInv (serialConnectPriv env st).1 := by
  unfold serialConnectPriv
  by_cases hc : st.is_connected = true
  · rw [if_pos hc]
    exact h
  · rw [if_neg hc]
    rcases hres : serialSetOptionsPriv env st with ⟨st', e⟩
    have hinv' : ChanInv st' := by
      have h' := chanInv_serialSetOptionsPriv env st h
      rw [hres] at h'
      exact h'
    cases e with
    | none =>
      have hopen : st'.is_open = true := by
        have ho := serialSetOptionsPriv_ok_open env st h (by rw [hres])
        obtain ⟨f1, _, _⟩ := serialSetOptionsPriv_flags env st
        rw [hres] at f1
        exact f1.trans ho
      exact ⟨fun _ => hopen, by simp [hinv'.2, hopen]⟩
    | some e =>
      exact hinv'

/-- `Ether::open_` preserves the channel invariant. -/
theorem chanInv_etherOpenPriv (env : OsEnv) (st : CommState) (h : ChanInv st) :
    ChanInv (etherOpenPriv env st).1 := by
  obtain ⟨h1, h2⟩ := h
  unfold etherOpenPriv
  by_cases ho : st.is_open = true
  · rw [if_pos ho]
    exact ⟨h1, h2⟩
  · simp only [Bool.not_eq_true] at ho
    have hcn : st.is_connected = false := bool_imp_false h1 ho
    by_cases hk : env.openOk = true
    · simp [ho, hk, ChanInv, hcn]
    · simp [ho, hk, ChanInv, hcn]

/-- `Ether::setOptions_` modifies no channel state at all. -/
theorem etherSetOptionsPriv_state (env : OsEnv) (st : CommState) :
    (etherSetOptionsPriv env st).1 = st := by
  unfold etherSetOptionsPriv
  cases st.fd with
  | none => rfl
  | some v =>
    by_cases hk : env.sockOk = true
    · rw [if_pos hk]
    · rw [if_neg hk]

/-- `Ether::setOptions_` preserves the channel invariant. -/
theorem chanInv_etherSetOptionsPriv (env : OsEnv) (st : CommState) (h : ChanInv st) :
    ChanInv (etherSetOptionsPriv env st).1 := by
  rw [etherSetOptionsPriv_state]
  exact h

/-- `Ether::connect_` preserves the channel invariant: `is_connected_` is set
only on the path where the descriptor is valid, i.e. the channel is open. -/
theorem chanInv_etherConnectPriv (env : OsEnv) (st : CommState) (h : ChanInv st) :
    ChanInv (etherConnectPriv env st).1 := by
  unfold etherConnectPriv
  by_cases hg : (st.is_connected || st.address.isEmpty || decide (st.port = 0)) = true
  · rw [if_pos hg]
    exact h
  · rw [if_neg hg]
    by_cases hp : ¬ env.parseOk = true
    · rw [if_pos hp]
      exact h
    · rw [if_neg hp]
      cases hfd : st.fd with
      | none => exact h
      | some v =>
        by_cases hf : ¬ env.fcntlOk = true
        · rw [if_pos hf]
          exact h
        · rw [if_neg hf]
          by_cases hcn : ¬ env.connectOk = true
          · rw [if_pos hcn]
            exact h
          · rw [if_neg hcn]
            have hopen : st.is_open = true := by
              have h2 := h.2
              rw [hfd] at h2
              simpa using h2.symm
            rcases hres : etherSetOptionsPriv env st with ⟨st', e⟩
            have hinv' : ChanInv st' := by
              have h' := chanInv_etherSetOptionsPriv env st h
              rw [hres] at h'
              exact h'
            have hflags : st' = st := by
              have hs := etherSetOptionsPriv_state env st
              rw [hres] at hs
              exact hs
            cases e with
            | none =>
              cases hflags
              exact ⟨fun _ => hopen, by simp [h.2, hopen]⟩
            | some e => exact hinv'

/-- The public `Comm::open` preserves the channel invariant whenever the two
virtual hooks it sequences do. -/
theorem chanInv_commOpen
    (openPriv connectPriv : OsEnv → CommState → CommState × Option CommError)
    (hop : ∀ env st, ChanInv st → ChanInv (openPriv env st).1)
    (hconn : ∀ env st, ChanInv st → ChanInv (connectPriv env st).1)
    (env : OsEnv) (st : CommState) (h : ChanInv st) :
    ChanInv (commOpen openPriv connectPriv env st).1 := by
  unfold commOpen
  rcases hres : openPriv env st with ⟨st', e⟩
  have hinv' : ChanInv st' := by
    have h' := hop env st h
    rw [hres] at h'
    exact h'
  cases e with
  | none => exact hconn env st' hinv'
  | some e => exact hinv'

/-- `Comm::setAddress` preserves the channel invariant whenever the virtual
`open_` hook does. -/
theorem chanInv_commSetAddress
    (openPriv : OsEnv → CommState → CommState × Option CommError)
    (hop : ∀ env st, ChanInv st → ChanInv (openPriv env st).1)
    (env : OsEnv) (st : CommState) (a : String) (h : ChanInv st) :
    ChanInv (commSetAddress openPriv env st a).1 := by
  unfold commSetAddress
  by_cases he : st.address = a
  · rw [if_pos he]
    exact h
  · rw [if_neg he]
    have h1 : ChanInv { st with address := a } := ⟨h.1, h.2⟩
    by_cases hc : ({ st with address := a } : CommState).is_connected = true
    · rw [if_pos hc]
      rcases hres : commClose env { st with address := a } with ⟨st2, e⟩
      have hinv2 : ChanInv st2 := by
        have h' := chanInv_commClose env { st with address := a } h1
        rw [hres] at h'
        exact h'
      cases e with
      | none => exact hop env st2 hinv2
      | some e => exact hinv2
    · rw [if_neg hc]
      exact h1

/-- `Comm::setPort` preserves the channel invariant whenever the virtual
`open_` hook does. -/
theorem chanInv_commSetPort
    (openPriv : OsEnv → CommState → CommState × Option CommError)
    (hop : ∀ env st, ChanInv st → ChanInv (openPriv env st).1)
    (env : OsEnv) (st : CommState) (p : Nat) (h : ChanInv st) :
    ChanInv (commSetPort openPriv env st p).1 := by
  unfold commSetPort
  by_cases he : st.port = p
  · rw [if_pos he]
    exact h
  · rw [if_neg he]
    have h1 : ChanInv { st with port := p } := ⟨h.1, h.2⟩
    by_cases hc : ({ st with port := p } : CommState).is_connected = true
    · rw [if_pos hc]
      rcases hres : commClose env { st with port := p } with ⟨st2, e⟩
      have hinv2 : ChanInv st2 := by
        have h' := chanInv_commClose env { st with port := p } h1
        rw [hres] at h'
        exact h'
      cases e with
      | none => exact hop env st2 hinv2
      | some e => exact hinv2
    · rw [if_neg hc]
      exact h1

/-- `Comm::setBaudrate` preserves the channel invariant whenever the virtual
`open_` hook does. -/
theorem chanInv_commSetBaudrate
    (openPriv : OsEnv → CommState → CommState × Option CommError)
    (hop : ∀ env st, ChanInv st → ChanInv (openPriv env st).1)
    (env : OsEnv) (st : CommState) (b : Nat) (h : ChanInv st) :
    ChanInv (commSetBaudrate openPriv env st b).1 := by
  unfold commSetBaudrate
  by_cases he : st.baudrate = b
  · rw [if_pos he]
    exact h
  · rw [if_neg he]
    have h1 : ChanInv { st with baudrate := b } := ⟨h.1, h.2⟩
    by_cases hc : ({ st with baudrate := b } : CommState).is_connected = true
    · rw [if_pos hc]
      rcases hres : commClose env { st with baudrate := b } with ⟨st2, e⟩
      have hinv2 : ChanInv st2 := by
        have h' := chanInv_commClose env { st with baudrate := b } h1
        rw [hres] at h'
        exact h'
      cases e with
      | none => exact hop env st2 hinv2
      | some e => exact hinv2
    · rw [if_neg hc]
      exact h1

/-- Every public operation on a `Serial` channel preserves the invariant. -/
theorem chanInv_serialStep (env : OsEnv) (st : CommState) (op : ChanOp)
    (h : ChanInv st) : ChanInv (serialStep env st op).1 := by
  cases op with
  | openPub =>
    exact chanInv_commOpen _ _ chanInv_serialOpenPriv chanInv_serialConnectPriv env st h
  | closePub => exact chanInv_commClose env st h
  | flushPub => exact h
  | flushInputPub => exact h
  | flushOutputPub => exact h
  | waitReadPub => exact h
  | waitSendPub => exact h
  | readPub size first iters => exact h
  | readlinePub size first iters => exact h
  | readlinesPub size first iters => exact h
  | sendPub size first iters => exact h
  | setAddressPub a => exact chanInv_commSetAddress _ chanInv_serialOpenPriv env st a h
  | setPortPub p => exact chanInv_commSetPort _ chanInv_serialOpenPriv env st p h
  | setBaudratePub b => exact chanInv_commSetBaudrate _ chanInv_serialOpenPriv env st b h
  | setEOLPub e => exact ⟨h.1, h.2⟩
  | setTimeoutPub t =>
    exact chanInv_serialSetOptionsPriv env { st with timeout := t } ⟨h.1, h.2⟩
  | setSettingsPub s =>
    exact chanInv_serialSetOptionsPriv env { st with settings := s } ⟨h.1, h.2⟩
  | destructor => exact chanInv_commClose env st h

/-- Every public operation on an `Ether` channel preserves the invariant. -/
theorem chanInv_etherStep (env : OsEnv) (st : CommState) (op : ChanOp)
    (h : ChanInv st) : ChanInv (etherStep env st op).1 := by
  cases op with
  | openPub =>
    exact chanInv_commOpen _ _ chanInv_etherOpenPriv chanInv_etherConnectPriv env st h
  | closePub => exact chanInv_commClose env st h
  | flushPub => exact h
  | flushInputPub => exact h
  | flushOutputPub => exact h
  | waitReadPub => exact h
  | waitSendPub => exact h
  | readPub size first iters => exact h
  | readlinePub size first iters => exact h
  | readlinesPub size first iters => exact h
  | sendPub size first iters => exact h
  | setAddressPub a => exact chanInv_commSetAddress _ chanInv_etherOpenPriv env st a h
  | setPortPub p => exact chanInv_commSetPort _ chanInv_etherOpenPriv env st p h
  | setBaudratePub b => exact chanInv_commSetBaudrate _ chanInv_etherOpenPriv env st b h
  | setEOLPub e => exact ⟨h.1, h.2⟩
  | setTimeoutPub t =>
    exact chanInv_etherSetOptionsPriv env { st with timeout := t } ⟨h.1, h.2⟩
  | setSettingsPub s =>
    exact chanInv_etherSetOptionsPriv env { st with settings := s } ⟨h.1, h.2⟩
  | destructor => exact chanInv_commClose env st h

/-- C8.  The invariant `is_connected ⇒ is_open` (together with the
handle-validity invariant `fd valid ⇔ is_open` that sustains it) holds in the
initial state of every channel and is preserved by every public operation,
under every OS environment, for both the serial and the ethernet transport:
no operation can leave a channel connected but not open. -/
theorem conn_imp_open_invariant :
    (∀ (address : String) (baudrate port : Nat) (eol : List Nat)
      (timeout : Timeout) (settings : Settings),
      ChanInv (initState address baudrate port eol timeout settings)) ∧
    (∀ (env : OsEnv) (st : CommState) (op : ChanOp), ChanInv st →
      ChanInv (serialStep env st op).1 ∧ ChanInv (etherStep env st op).1) ∧
    (∀ st : CommState, ChanInv st → st.is_connected = true → st.is_open = true) := by
  refine ⟨?_, ?_, ?_⟩
  · intro a b p e t s
    exact ⟨by simp [initState], by simp [initState]⟩
  · intro env st op h
    exact ⟨chanInv_serialStep env st op h, chanInv_etherStep env st op h⟩
  · intro st h
    exact h.1

/-- C8 witness: closing the connected example channel preserves the invariant
on both transports. -/
theorem conn_imp_open_invariant_witness :
    ChanInv (serialStep envAllOk serialConnectedExample .closePub).1 ∧
    ChanInv (etherStep envAllOk serialConnectedExample .closePub).1 :=
  conn_imp_open_invariant.2.1 envAllOk serialConnectedExample .closePub (by decide)

/-- Bounds on the computed byte time: between 0 and 15 seconds for every baud
rate and settings (the numerator is at most `1 + 8 + 4 + 2` bit times). -/
theorem get_bytetime_bounds (b : Nat) (s : Settings) :
    0 ≤ get_bytetime b s ∧ get_bytetime b s ≤ 15 := by
  have hbs : (s.bytesize.val : ℚ) ≤ 8 := by cases s.bytesize <;> norm_num [ByteSize.val]
  have hbs0 : (0 : ℚ) ≤ s.bytesize.val := by positivity
  have hp : (s.parity.val : ℚ) ≤ 4 := by cases s.parity <;> norm_num [Parity.val]
  have hp0 : (0 : ℚ) ≤ s.parity.val := by positivity
  have hst : (if s.stopbits = .halfone then (3/2 : ℚ) else (s.stopbits.val : ℚ)) ≤ 2 := by
    cases s.stopbits with
    | one => rw [if_neg (by decide)]; norm_num [StopBits.val]
    | two => rw [if_neg (by decide)]; norm_num [StopBits.val]
    | halfone => rw [if_pos rfl]; norm_num
  have hst0 : (0 : ℚ) ≤ (if s.stopbits = .halfone then (3/2 : ℚ) else (s.stopbits.val : ℚ)) := by
    cases s.stopbits with
    | one => rw [if_neg (by decide)]; norm_num [StopBits.val]
    | two => rw [if_neg (by decide)]; norm_num [StopBits.val]
    | halfone => rw [if_pos rfl]; norm_num
  unfold get_bytetime
  constructor
  · positivity
  · rcases Nat.eq_zero_or_pos b with hb | hb
    · simp [hb]
    · have hb1 : (1 : ℚ) ≤ b := by exact_mod_cast hb
      have hnum : (1 + (s.bytesize.val : ℚ) + s.parity.val +
          (if s.stopbits = .halfone then (3/2 : ℚ) else s.stopbits.val)) ≤ 15 := by
        linarith
      have hnum0 : (0 : ℚ) ≤ 1 + (s.bytesize.val : ℚ) + s.parity.val +
          (if s.stopbits = .halfone then (3/2 : ℚ) else s.stopbits.val) := by
        linarith
      calc _ ≤ (1 + (s.bytesize.val : ℚ) + s.parity.val +
            (if s.stopbits = .halfone then (3/2 : ℚ) else s.stopbits.val)) :=
              div_le_self hnum0 hb1
        _ ≤ 15 := hnum

/-- The byte time always converts to a `timeval` without a range error. -/
theorem to_timeval_bytetime_ok (b : Nat) (s : Settings) :
    ∃ tv : Timeval, to_timeval (get_bytetime b s) = .ok tv := by
  obtain ⟨h0, h15⟩ := get_bytetime_bounds b s
  have hcond : ¬ (⌊get_bytetime b s⌋ < 0 ∨ (4294967295 : ℤ) < ⌊get_bytetime b s⌋) := by
    push_neg
    refine ⟨Int.floor_nonneg.mpr h0, ?_⟩
    have h := Int.floor_le_floor h15
    have h15' : ⌊(15 : ℚ)⌋ = 15 := by norm_num
    rw [h15'] at h
    omega
  simp only [to_timeval]
  rw [if_neg hcond]
  exact ⟨_, rfl⟩

/-- C9 amended.  `get_bytetime` computes
`(1 + byte_size + parity_code + stop_bits) / baud_rate` seconds, where
`parity_code` is the raw `Parity` enum value — 0 (none), 1 (odd), 2 (even),
3 (mark), 4 (space) — so the parity term can reach four bit times, not at most
one; stop bits count 1, 2, or 1.5 for the one-and-a-half setting.
`Serial::setOptions_` stores `to_timeval(get_bytetime(baudrate_, settings_))`
into the per-byte timeout, re-deriving it on every settings/timeout change and
on connect — but `setBaudrate` itself never re-derives it: the baud-rate
setter closes and reopens without reapplying configuration, leaving the
per-byte timeout untouched until the next connect. -/
theorem bytetime_formula_and_rederivation :
    (∀ (b : Nat) (s : Settings), b ≠ 0 →
      get_bytetime b s * b =
        1 + (s.bytesize.val : ℚ) + (s.parity.val : ℚ) +
          (if s.stopbits = .halfone then (3/2 : ℚ) else (s.stopbits.val : ℚ))) ∧
    (∀ (env : OsEnv) (st : CommState) (v : Nat), env.tcOk = true → st.fd = some v →
      ∃ tv : Timeval, to_timeval (get_bytetime st.baudrate st.settings) = .ok tv ∧
        (serialSetOptionsPriv env st).1.timeout.byte = tv) ∧
    (∀ (env : OsEnv) (st : CommState) (b : Nat),
      (commSetBaudrate serialOpenPriv env st b).1.timeout = st.timeout) := by
  refine ⟨?_, ?_, ?_⟩
  · intro b s hb
    unfold get_bytetime
    rw [div_mul_cancel₀]
    exact_mod_cast Nat.cast_ne_zero.mpr hb
  · intro env st v hk hfd
    obtain ⟨tv, htv⟩ := to_timeval_bytetime_ok st.baudrate st.settings
    refine ⟨tv, htv, ?_⟩
    unfold serialSetOptionsPriv
    rw [hfd]
    simp only [hk, if_true, htv]
  · intro env st b
    unfold commSetBaudrate
    by_cases he : st.baudrate = b
    · rw [if_pos he]
    · rw [if_neg he]
      by_cases hc : ({ st with baudrate := b } : CommState).is_connected = true
      · rw [if_pos hc]
        rcases hres : commClose env { st with baudrate := b } with ⟨st2, e⟩
        have ht2 : st2.timeout = st.timeout := by
          unfold commClose at hres
          by_cases ho : ({ st with baudrate := b } : CommState).is_open = true
          · rw [if_pos ho] at hres
            cases hfd : ({ st with baudrate := b } : CommState).fd with
            | some v =>
              rw [hfd] at hres
              by_cases hk : env.closeOk = true
              · rw [if_pos hk] at hres
                cases hres
                rfl
              · rw [if_neg hk] at hres
                cases hres
                rfl
            | none =>
              rw [hfd] at hres
              cases hres
              rfl
          · rw [if_neg ho] at hres
            cases hres
            rfl
        cases e with
        | none =>
          show (serialOpenPriv env st2).1.timeout = st.timeout
          unfold serialOpenPriv
          by_cases ho2 : (st2.is_open || st2.address.isEmpty) = true
          · rw [if_pos ho2]
            exact ht2
          · rw [if_neg ho2]
            by_cases hk2 : env.openOk = true
            · rw [if_pos hk2]
              exact ht2
            · rw [if_neg hk2]
              exact ht2
        | some e =>
          show st2.timeout = st.timeout
          exact ht2
      · rw [if_neg hc]

/-- C9 amended witness: configuring the connected example channel stores the
converted byte time into the per-byte timeout. -/
theorem bytetime_formula_witness :
    ∃ tv : Timeval,
      to_timeval
        (get_bytetime serialConnectedExample.baudrate serialConnectedExample.settings) =
          .ok tv ∧
      (serialSetOptionsPriv envAllOk serialConnectedExample).1.timeout.byte = tv :=
  bytetime_formula_and_rederivation.2.1 envAllOk serialConnectedExample 3 rfl rfl

/-- C10.  Calling `setAddress`, `setPort` or `setBaudrate` with the currently
stored value returns before any lock acquisition or state change: the state —
including `is_open`, `is_connected` and the descriptor — is exactly unchanged
and no close/reopen happens, on both transports, even when connected. -/
theorem equal_value_setters_are_noops :
    ∀ (env : OsEnv) (st : CommState),
      (serialStep env st (.setAddressPub st.address) = (st, none) ∧
       etherStep env st (.setAddressPub st.address) = (st, none)) ∧
      (serialStep env st (.setPortPub st.port) = (st, none) ∧
       etherStep env st (.setPortPub st.port) = (st, none)) ∧
      (serialStep env st (.setBaudratePub st.baudrate) = (st, none) ∧
       etherStep env st (.setBaudratePub st.baudrate) = (st, none)) := by
  intro env st
  refine ⟨⟨?_, ?_⟩, ⟨?_, ?_⟩, ⟨?_, ?_⟩⟩ <;>
    simp [serialStep, etherStep, commSetAddress, commSetPort, commSetBaudrate]

end CommLib
